import Mathlib

/-!
Verification of the taskfarmer job-queue protocol (src/python/taskfarmer.py).

Python strings are modelled as lists of characters (`PyStr`).  The task
file's content is one `PyStr`; `splitLines` mirrors Python's
`file.readlines()` (each chunk keeps its terminating newline; a final
chunk without a newline is kept as-is).  The claim transaction, the
command validator `is_allowed`, the retry loop and the worker loop are
each translated directly from the source.
-/

/-- A Python string: a list of characters. -/
abbrev PyStr := List Char

/-- Characters Python 2 `str.isspace` counts as whitespace:
space, tab, newline, vertical tab, form feed, carriage return. -/
def pyIsSpaceChar (c : Char) : Bool :=
  c = ' ' || c = '\t' || c = '\n' || c = '\x0b' || c = '\x0c' || c = '\r'

/-- Python's `s.isspace()`: true iff `s` is non-empty and every character
is whitespace.  In particular it is `false` on the empty string. -/
def str_isspace (s : PyStr) : Bool :=
  !s.isEmpty && s.all pyIsSpaceChar

/-- Python's `file.readlines()` applied to the file content: split the
content into chunks after every newline; every chunk except possibly the
last ends with a newline, and the chunks concatenate back to the content. -/
def splitLines : PyStr → List PyStr
  | [] => []
  | c :: rest =>
      if c = '\n' then ['\n'] :: splitLines rest
      else
        match splitLines rest with
        | [] => [[c]]
        | l :: ls => (c :: l) :: ls

/-- Python's `s.strip(c)` for a single character `c`: remove every copy of
`c` from both ends (the source uses `strip('\n')` on a line, which for a
`readlines` chunk removes exactly the trailing newline). -/
def stripChar (c : Char) (s : PyStr) : PyStr :=
  ((s.dropWhile (fun d => d = c)).reverse.dropWhile (fun d => d = c)).reverse

/-- The claim transaction of taskfarmer.py lines 215-240, performed while
holding the exclusive flock: read all lines (`tasks = f.readlines()`);
if `num_tasks > 0`, pop the first line, strip its newline, and persist the
remaining lines (`f.seek(0); f.truncate(); f.writelines(tasks)`), whose
content is their concatenation; otherwise the file is not written and its
content is unchanged.  Returns the claimed task (if any) and the persisted
file content after the transaction. -/
def claimTransaction (content : PyStr) : Option PyStr × PyStr :=
  match splitLines content with
  | [] => (none, content)
  | t :: rest => (some (stripChar '\n' t), rest.flatten)

theorem splitLines_ne_nil (c : Char) (rest : PyStr) :
    splitLines (c :: rest) ≠ [] := by
  unfold splitLines
  split
  · simp
  · split <;> simp

theorem splitLines_eq_nil_iff (s : PyStr) : splitLines s = [] ↔ s = [] := by
  cases s with
  | nil => simp [splitLines]
  | cons c rest =>
      simp only [List.cons_ne_nil, iff_false]
      exact splitLines_ne_nil c rest

/-- The chunks produced by `splitLines` concatenate back to the content. -/
theorem join_splitLines (s : PyStr) : (splitLines s).flatten = s := by
  induction s with
  | nil => rfl
  | cons c rest ih =>
      by_cases hc : c = '\n'
      · subst hc
        simp [splitLines, ih]
      · cases hr : splitLines rest with
        | nil =>
            have : rest = [] := (splitLines_eq_nil_iff rest).mp hr
            subst this
            simp [splitLines, hc]
        | cons l ls =>
            rw [hr] at ih
            simp only [splitLines, if_neg hc, hr, List.flatten_cons] at *
            rw [List.cons_append, ih]

/-- Re-reading the file after the remainder of the line list is written
back yields exactly that remainder: the written-back lines are intact. -/
theorem splitLines_join_tail :
    ∀ (s : PyStr) (l : PyStr) (ls : List PyStr),
      splitLines s = l :: ls → splitLines ls.flatten = ls := by
  intro s
  induction s with
  | nil => intro l ls h; simp [splitLines] at h
  | cons c rest ih =>
      intro l ls h
      by_cases hc : c = '\n'
      · subst hc
        have h₂ : splitLines rest = ls := by
          have := h
          simp [splitLines] at this
          exact this.2
        rw [← h₂, join_splitLines]
      · cases hr : splitLines rest with
        | nil =>
            simp only [splitLines, if_neg hc, hr, List.cons.injEq] at h
            rw [← h.2]
            simp [splitLines]
        | cons l₂ ls₂ =>
            simp only [splitLines, if_neg hc, hr, List.cons.injEq] at h
            rw [← h.2]
            exact ih l₂ ls₂ hr

/-- Boolean test for one denylist entry `cmd` (taskfarmer.py lines 196-200):
`cmd1 = cmd + " "`, `cmd2 = " " + cmd + " "`; the task is disallowed when
`task.startswith(cmd1)` (a prefix test) or `cmd2 in task` (a substring,
i.e. infix, test). -/
def matchesCmd (cmd task : PyStr) : Bool :=
  decide ((cmd ++ [' ']) <+: task) || decide (([' '] ++ cmd ++ [' ']) <:+: task)

/-- The `for cmd in args.disallowed` loop of taskfarmer.py lines 195-201:
return the first denylist entry that matches, if any (the function returns
inside the loop on the first match). -/
def checkDisallowed (task : PyStr) : List PyStr → Option PyStr
  | [] => none
  | cmd :: rest =>
      if matchesCmd cmd task then some cmd else checkDisallowed task rest

/-- The command validator `is_allowed` of taskfarmer.py lines 181-203,
with the denylist `args.disallowed` passed explicitly.  The checks run in
source order: `task.isspace()`, null character, `len(task) is 0`, then the
denylist loop; the returned pair is (allowed?, message). -/
def is_allowed (disallowed : List PyStr) (task : PyStr) : Bool × PyStr :=
  if str_isspace task then (false, "task string is empty".toList)
  else if task.contains '\x00' then (false, "null character present".toList)
  else if task.length = 0 then (false, "task string has zero length".toList)
  else
    match checkDisallowed task disallowed with
    | some cmd => (false, cmd ++ " found".toList)
    | none => (true, "no error".toList)

/-- Worker configuration: the fields of `args` consumed by the worker loop
(taskfarmer.py lines 160-174), with the source's defaults noted there:
`verbose = false`, `wait_on_idle = false`, `retry = false`,
`sleep_time = 300`, `max_retries = 10`, `disallowed = ["rm"]`. -/
structure Config where
  verbose : Bool
  wait_on_idle : Bool
  retry : Bool
  sleep_time : Nat
  max_retries : Nat
  disallowed : List PyStr
deriving DecidableEq

/-- One run of the execution loop of taskfarmer.py lines 252-253,
`while attempts < args.max_retries and os.system(task) != 0: attempts += 1`,
unrolled on the remaining budget `rem = max_retries - attempts`.
`exec n` is the exit status `os.system` returns when the loop condition is
evaluated with `attempts = n`.  Returns (number of `os.system` calls made,
final value of `attempts`). -/
def execAttempts (exec : Nat → Int) : Nat → Nat → Nat × Nat
  | 0, attempts => (0, attempts)
  | rem + 1, attempts =>
      if exec attempts ≠ 0 then
        ((execAttempts exec rem (attempts + 1)).1 + 1,
         (execAttempts exec rem (attempts + 1)).2)
      else (1, attempts)

/-- The retry loop entered with counter value `attempts` and bound
`maxR = args.max_retries`: the loop guard is `attempts < maxR`, so the
remaining budget is `maxR - attempts`. -/
def retryLoop (exec : Nat → Int) (attempts maxR : Nat) : Nat × Nat :=
  execAttempts exec (maxR - attempts) attempts

/-- The observable outcome of one iteration of the `while True` worker
loop (taskfarmer.py lines 206-284) once the task file has been opened:
a job was claimed and handed to the validator/executor (`ranJob` records
the job, the validator verdict and how many times `os.system` ran), or
the store was empty and the worker slept (`idleSlept` records the sleep
duration), or the store was empty and the worker called `sys.exit()`. -/
inductive StepOutcome where
  | ranJob (job : PyStr) (allowed : Bool) (execs : Nat)
  | idleSlept (secs : Nat)
  | terminated
deriving DecidableEq

/-- One iteration of the worker loop body on store content `content`:
the claim transaction under the lock, then — outside the lock — the
validator and, for an allowed job, the retry loop started with
`attempts = 0` (line 243) and bound `args.max_retries` (line 252).
Returns the outcome and the persisted store content afterwards.  Note the
loop bound is `args.max_retries` whether or not `args.retry` is set: the
module-level `max_retries = 1` assigned on line 178 when retry is unset is
never read anywhere. -/
def workerStep (cfg : Config) (exec : Nat → Int) (content : PyStr) :
    StepOutcome × PyStr :=
  match claimTransaction content with
  | (some task, c₂) =>
      if (is_allowed cfg.disallowed task).1 then
        (StepOutcome.ranJob task true (retryLoop exec 0 cfg.max_retries).1, c₂)
      else (StepOutcome.ranJob task false 0, c₂)
  | (none, c₂) =>
      if cfg.wait_on_idle then (StepOutcome.idleSlept cfg.sleep_time, c₂)
      else (StepOutcome.terminated, c₂)

/-- Several iterations of the worker loop, bounded by `fuel`.  The worker
stops for good on `sys.exit()` (the `terminated` outcome ends the run no
matter how much fuel is left).  `app` models external appends to the task
file (`cat more >> tasks.txt`): after each idle sleep the next entry of
`app` is appended to the store, which is how new work arrives while the
worker sleeps. -/
def workerRun (cfg : Config) (exec : Nat → Int) :
    List PyStr → Nat → PyStr → List StepOutcome
  | _, 0, _ => []
  | app, fuel + 1, content =>
      match workerStep cfg exec content with
      | (StepOutcome.terminated, _) => [StepOutcome.terminated]
      | (StepOutcome.idleSlept s, c₂) =>
          match app with
          | [] => StepOutcome.idleSlept s :: workerRun cfg exec [] fuel c₂
          | a :: restApp =>
              StepOutcome.idleSlept s :: workerRun cfg exec restApp fuel (c₂ ++ a)
      | (StepOutcome.ranJob job ok n, c₂) =>
          StepOutcome.ranJob job ok n :: workerRun cfg exec app fuel c₂

/-- A sequence of claim transactions by concurrent workers. The exclusive
flock serializes the transactions, so any concurrent execution is some
sequence `ws` of worker ranks in lock-acquisition order, each performing
one complete claim transaction on the store left by the previous one.
Returns the claim events (rank, claimed job) in lock-acquisition order and
the final store content; a worker that finds the store empty claims
nothing. -/
def runClaims : List Nat → PyStr → List (Nat × PyStr) × PyStr
  | [], content => ([], content)
  | w :: rest, content =>
      match claimTransaction content with
      | (some job, c₂) =>
          ((w, job) :: (runClaims rest c₂).1, (runClaims rest c₂).2)
      | (none, c₂) => runClaims rest c₂

/-- Exit paths for the open-failure handler of taskfarmer.py lines
208-212: the intended `sys.exit()`, or termination by an exception that
propagates out of the handler. -/
inductive ExitKind where
  | sysExit
  | uncaughtNameError
deriving DecidableEq

/-- One item of a Python 2 chevron `print` statement: a string literal or
a variable name to evaluate. -/
inductive PrintItem where
  | lit (s : PyStr)
  | name (x : PyStr)

/-- The names the except-handler on line 211 could reference, with their
values: `args.file` holds the configured store path.  The name `task_file`
is assigned nowhere in taskfarmer.py, so looking it up fails. -/
def moduleEnv (file : PyStr) : PyStr → Option PyStr :=
  fun x => if x = "args.file".toList then some file else none

/-- Python 2 `print >> sys.stderr, item, item, ...`: items are evaluated
and written left to right, so everything before a failing item is already
on stderr when the lookup raises NameError and aborts the statement.
Returns (tokens written, whether a NameError was raised). -/
def printTokens (env : PyStr → Option PyStr) : List PrintItem → List PyStr × Bool
  | [] => ([], false)
  | PrintItem.lit s :: items =>
      (s :: (printTokens env items).1, (printTokens env items).2)
  | PrintItem.name x :: items =>
      match env x with
      | some v => (v :: (printTokens env items).1, (printTokens env items).2)
      | none => ([], true)

/-- The `except IOError` handler of taskfarmer.py lines 210-212 as run
when `open(args.file, 'r+')` fails:
`print >> sys.stderr, "I/O Error:", task_file, "doesn't exist!"` followed
by `sys.exit()`.  If the print statement raises, the exception propagates
(there is no enclosing handler) and `sys.exit()` is never reached, so the
worker dies from the exception instead. -/
def openFailureOutcome (file : PyStr) : List PyStr × ExitKind :=
  ((printTokens (moduleEnv file)
      [PrintItem.lit ("I/O Error:".toList),
       PrintItem.name ("task_file".toList),
       PrintItem.lit ("doesn't exist!".toList)]).1,
   if (printTokens (moduleEnv file)
      [PrintItem.lit ("I/O Error:".toList),
       PrintItem.name ("task_file".toList),
       PrintItem.lit ("doesn't exist!".toList)]).2
   then ExitKind.uncaughtNameError else ExitKind.sysExit)

example : splitLines ("a\nbb\n".toList) = ["a\n".toList, "bb\n".toList] := by decide
example : claimTransaction ("a\nbb\n".toList) =
    (some ("a".toList), "bb\n".toList) := by decide
example : claimTransaction [] = (none, []) := by decide
example : claimTransaction ("solo".toList) = (some ("solo".toList), []) := by decide

example : is_allowed ["rm".toList] [] =
    (false, "task string has zero length".toList) := by decide
example : is_allowed ["rm".toList] ("   ".toList) =
    (false, "task string is empty".toList) := by decide
example : is_allowed ["rm".toList] ("rm -rf /".toList) =
    (false, "rm found".toList) := by decide
example : is_allowed ["rm".toList] ("echo hi".toList) =
    (true, "no error".toList) := by decide
example : is_allowed ["rm".toList] ("format-rm-data".toList) =
    (true, "no error".toList) := by decide
example : is_allowed ["rm".toList] ("rm".toList) =
    (true, "no error".toList) := by decide
example : is_allowed ["rm".toList] ("echo a; rm".toList) =
    (true, "no error".toList) := by decide
example : is_allowed ["rm".toList] ("echo a; rm it".toList) =
    (false, "rm found".toList) := by decide
example : retryLoop (fun _ => 1) 0 10 = (10, 10) := by decide
example : retryLoop (fun _ => 0) 0 10 = (1, 0) := by decide
example : openFailureOutcome ("tasks.txt".toList) =
    (["I/O Error:".toList], ExitKind.uncaughtNameError) := by decide

theorem matchesCmd_iff (cmd task : PyStr) :
    matchesCmd cmd task = true ↔
      ((cmd ++ [' ']) <+: task ∨ ([' '] ++ cmd ++ [' ']) <:+: task) := by
  simp [matchesCmd]

theorem checkDisallowed_eq_some (task : PyStr) (d : List PyStr) (cmd : PyStr)
    (h : checkDisallowed task d = some cmd) :
    cmd ∈ d ∧ matchesCmd cmd task = true := by
  induction d with
  | nil => simp [checkDisallowed] at h
  | cons c rest ih =>
      by_cases hm : matchesCmd c task
      · simp only [checkDisallowed, if_pos hm, Option.some.injEq] at h
        subst h
        exact ⟨List.mem_cons_self c rest, hm⟩
      · simp only [checkDisallowed, if_neg hm] at h
        obtain ⟨hmem, hmm⟩ := ih h
        exact ⟨List.mem_cons_of_mem c hmem, hmm⟩

theorem checkDisallowed_eq_none_iff (task : PyStr) (d : List PyStr) :
    checkDisallowed task d = none ↔ ∀ cmd ∈ d, matchesCmd cmd task = false := by
  induction d with
  | nil => simp [checkDisallowed]
  | cons c rest ih =>
      by_cases hm : matchesCmd c task
      · simp [checkDisallowed, hm]
      · simp only [checkDisallowed, if_neg hm, ih, List.mem_cons]
        constructor
        · intro h cmd hcmd
          cases hcmd with
          | inl he => rw [he]; exact Bool.eq_false_iff.mpr hm
          | inr hr => exact h cmd hr
        · intro h cmd hcmd
          exact h cmd (Or.inr hcmd)

/-- When every `os.system` call fails, the loop makes exactly
`rem` calls and the counter advances by `rem`. -/
theorem execAttempts_all_fail (exec : Nat → Int) (hfail : ∀ n, exec n ≠ 0) :
    ∀ (rem attempts : Nat),
      execAttempts exec rem attempts = (rem, attempts + rem) := by
  intro rem
  induction rem with
  | zero => intro attempts; simp [execAttempts]
  | succ r ih =>
      intro attempts
      simp only [execAttempts, if_pos (hfail attempts), ih]
      rw [Prod.mk.injEq]
      exact ⟨rfl, by omega⟩

/-- With the counter started at zero (line 243) and an always-failing
task, the loop runs `os.system` exactly `maxR` times. -/
theorem retryLoop_all_fail (exec : Nat → Int) (hfail : ∀ n, exec n ≠ 0)
    (maxR : Nat) : retryLoop exec 0 maxR = (maxR, maxR) := by
  simp [retryLoop, execAttempts_all_fail exec hfail]

/-- C3: for every non-empty Job Store content, one completed claim
transaction yields the first line with its newline stripped, and persists
exactly the remaining lines verbatim and in order — re-reading the
persisted content returns exactly those lines, so no partial or corrupted
line appears and the content equals the old content minus its first line. -/
theorem claim_transaction_pops_first_line (content : PyStr) (h : content ≠ []) :
    ∃ first rest, splitLines content = first :: rest ∧
      claimTransaction content = (some (stripChar '\n' first), rest.flatten) ∧
      content = first ++ rest.flatten ∧
      splitLines rest.flatten = rest := by
  cases hc : splitLines content with
  | nil => exact absurd ((splitLines_eq_nil_iff content).mp hc) h
  | cons f ls =>
      refine ⟨f, ls, rfl, ?_, ?_, ?_⟩
      · simp [claimTransaction, hc]
      · conv_lhs => rw [← join_splitLines content]
        rw [hc, List.flatten_cons]
      · exact splitLines_join_tail content f ls hc

theorem claim_transaction_pops_first_line_witness :
    ∃ first rest, splitLines ("a\nbb\n".toList) = first :: rest ∧
      claimTransaction ("a\nbb\n".toList) =
        (some (stripChar '\n' first), rest.flatten) ∧
      "a\nbb\n".toList = first ++ rest.flatten ∧
      splitLines rest.flatten = rest :=
  claim_transaction_pops_first_line ("a\nbb\n".toList) (by decide)

/-- C9: a claim transaction that reads an empty task list yields no job
and performs no write: the persisted content is returned unchanged. -/
theorem empty_claim_writes_nothing (content : PyStr)
    (h : (splitLines content).length = 0) :
    claimTransaction content = (none, content) := by
  have hnil : splitLines content = [] := List.length_eq_zero.mp h
  simp [claimTransaction, hnil]

theorem empty_claim_writes_nothing_witness :
    claimTransaction [] = (none, []) :=
  empty_claim_writes_nothing [] rfl

/-- C2: when enough claim transactions are performed to exhaust the store
(the lock-acquisition schedule `ws` has at least as many entries as the
store has lines), the claim events pair each of the original jobs with
exactly one worker, in exactly the original line order, and the final
store is empty: no duplication, no loss, no reordering. -/
theorem exactly_once_fifo_claims (ws : List Nat) (content : PyStr)
    (h : (splitLines content).length ≤ ws.length) :
    (runClaims ws content).1.map Prod.snd =
        (splitLines content).map (stripChar '\n') ∧
    (runClaims ws content).2 = [] := by
  induction ws generalizing content with
  | nil =>
      have hnil : splitLines content = [] :=
        List.length_eq_zero.mp (Nat.le_zero.mp h)
      have hcontent : content = [] := (splitLines_eq_nil_iff content).mp hnil
      subst hcontent
      simp [runClaims, hnil]
  | cons w rest ih =>
      cases hc : splitLines content with
      | nil =>
          have hcontent : content = [] := (splitLines_eq_nil_iff content).mp hc
          subst hcontent
          have hclaim : claimTransaction [] =
              ((none : Option PyStr), ([] : PyStr)) := rfl
          have hrec := ih [] (by simp [splitLines])
          constructor
          · simpa [runClaims, hclaim, splitLines] using hrec.1
          · simpa [runClaims, hclaim] using hrec.2
      | cons f ls =>
          have hclaim : claimTransaction content =
              (some (stripChar '\n' f), ls.flatten) := by
            simp [claimTransaction, hc]
          have hsl : splitLines ls.flatten = ls :=
            splitLines_join_tail content f ls hc
          have hlen : (splitLines ls.flatten).length ≤ rest.length := by
            rw [hsl]
            rw [hc] at h
            simp only [List.length_cons] at h
            omega
          obtain ⟨ih1, ih2⟩ := ih ls.flatten hlen
          rw [hsl] at ih1
          constructor
          · simp [runClaims, hclaim, hc, ih1]
          · simp [runClaims, hclaim, ih2]

theorem exactly_once_fifo_claims_witness :
    (runClaims [0, 1, 0] ("a\nb\n".toList)).1.map Prod.snd =
        (splitLines ("a\nb\n".toList)).map (stripChar '\n') ∧
    (runClaims [0, 1, 0] ("a\nb\n".toList)).2 = [] :=
  exactly_once_fifo_claims [0, 1, 0] ("a\nb\n".toList) (by decide)

/-- C5 counterexample: on the zero-length string the whitespace rule does
not fire (Python's isspace is false on the empty string), so the validator
reports "task string has zero length", not the whitespace rejection "task
string is empty" that the claim's reason "empty" names. -/
theorem empty_string_rejected_as_zero_length :
    is_allowed ["rm".toList] [] =
      (false, "task string has zero length".toList) ∧
    (is_allowed ["rm".toList] []).2 ≠ "task string is empty".toList := by
  decide

/-- C5 amended: the rejection rules run in source order with the first
match winning; a (necessarily non-empty) all-whitespace task is rejected
with "task string is empty" whatever the denylist; a non-whitespace task
containing a null byte is rejected with "null character present"; and the
zero-length string — which the whitespace rule does not match — is
rejected with "task string has zero length". -/
theorem validator_rule_order (d : List PyStr) (task : PyStr) :
    (str_isspace task = true →
        is_allowed d task = (false, "task string is empty".toList)) ∧
    (str_isspace task = false → task.contains '\x00' = true →
        is_allowed d task = (false, "null character present".toList)) ∧
    is_allowed d [] = (false, "task string has zero length".toList) := by
  refine ⟨?_, ?_, rfl⟩
  · intro h
    simp [is_allowed, h]
  · intro h1 h2
    have h2m : '\x00' ∈ task := by simpa using h2
    simp [is_allowed, h1, h2m]

theorem validator_rule_order_witness :
    is_allowed ["rm".toList] (" ".toList) =
      (false, "task string is empty".toList) ∧
    is_allowed ["rm".toList] ("a\x00".toList) =
      (false, "null character present".toList) ∧
    is_allowed ["rm".toList] [] =
      (false, "task string has zero length".toList) :=
  ⟨(validator_rule_order ["rm".toList] (" ".toList)).1 (by decide),
   (validator_rule_order ["rm".toList] ("a\x00".toList)).2.1
     (by decide) (by decide),
   (validator_rule_order ["rm".toList] []).2.2⟩

/-- C6: for a task that passes the whitespace, null-byte and zero-length
checks, the validator rejects exactly when some denylist token followed by
a space is a prefix of the task or occurs inside it surrounded by spaces;
and on rejection the message names such a matched token. -/
theorem denylist_word_boundary (d : List PyStr) (task : PyStr)
    (h1 : str_isspace task = false) (h2 : task.contains '\x00' = false)
    (h3 : task ≠ []) :
    ((is_allowed d task).1 = false ↔
      ∃ cmd ∈ d,
        ((cmd ++ [' ']) <+: task ∨ ([' '] ++ cmd ++ [' ']) <:+: task)) ∧
    ((is_allowed d task).1 = false →
      ∃ cmd ∈ d,
        (((cmd ++ [' ']) <+: task ∨ ([' '] ++ cmd ++ [' ']) <:+: task) ∧
          (is_allowed d task).2 = cmd ++ " found".toList)) := by
  have hlen : ¬(task.length = 0) := by
    simpa [List.length_eq_zero] using h3
  have h2m : '\x00' ∉ task := by simpa using h2
  cases hcd : checkDisallowed task d with
  | none =>
      have hall := (checkDisallowed_eq_none_iff task d).mp hcd
      have hval : is_allowed d task = (true, "no error".toList) := by
        simp [is_allowed, h1, h2m, hlen, hcd]
      rw [hval]
      refine ⟨⟨fun hfalse => absurd hfalse (by simp), ?_⟩,
        fun hfalse => absurd hfalse (by simp)⟩
      rintro ⟨cmd, hmem, hor⟩
      have hmm := hall cmd hmem
      exact absurd ((matchesCmd_iff cmd task).mpr hor) (by simp [hmm])
  | some cmd =>
      obtain ⟨hmem, hmm⟩ := checkDisallowed_eq_some task d cmd hcd
      have hval : is_allowed d task = (false, cmd ++ " found".toList) := by
        simp [is_allowed, h1, h2m, hlen, hcd]
      rw [hval]
      exact ⟨⟨fun _ => ⟨cmd, hmem, (matchesCmd_iff cmd task).mp hmm⟩,
        fun _ => rfl⟩,
        fun _ => ⟨cmd, hmem, (matchesCmd_iff cmd task).mp hmm, rfl⟩⟩

theorem denylist_word_boundary_witness :
    (((is_allowed ["rm".toList] ("rm -rf /".toList)).1 = false ↔
      ∃ cmd ∈ (["rm".toList] : List PyStr),
        ((cmd ++ [' ']) <+: ("rm -rf /".toList) ∨
          ([' '] ++ cmd ++ [' ']) <:+: ("rm -rf /".toList))) ∧
    ((is_allowed ["rm".toList] ("rm -rf /".toList)).1 = false →
      ∃ cmd ∈ (["rm".toList] : List PyStr),
        (((cmd ++ [' ']) <+: ("rm -rf /".toList) ∨
          ([' '] ++ cmd ++ [' ']) <:+: ("rm -rf /".toList)) ∧
          (is_allowed ["rm".toList] ("rm -rf /".toList)).2 =
            cmd ++ " found".toList))) ∧
    is_allowed ["rm".toList] ("rm -rf /".toList) =
      (false, "rm found".toList) ∧
    is_allowed ["rm".toList] ("echo hi".toList) = (true, "no error".toList) ∧
    is_allowed ["rm".toList] ("format-rm-data".toList) =
      (true, "no error".toList) :=
  ⟨denylist_word_boundary ["rm".toList] ("rm -rf /".toList)
      (by decide) (by decide) (by decide),
   by decide, by decide, by decide⟩

/-- C10: both denylist rules require the token to be followed by a space
("cmd " as a prefix, or " cmd " inside), so a task in which no denylisted
token occurrence is immediately followed by a space is allowed — in
particular a task exactly equal to a token, or ending with a token. -/
theorem token_not_followed_by_space_allowed (d : List PyStr) (task : PyStr)
    (h1 : str_isspace task = false) (h2 : task.contains '\x00' = false)
    (h3 : task ≠ [])
    (h4 : ∀ cmd ∈ d, ¬((cmd ++ [' ']) <:+: task)) :
    is_allowed d task = (true, "no error".toList) := by
  have hlen : ¬(task.length = 0) := by
    simpa [List.length_eq_zero] using h3
  have h2m : '\x00' ∉ task := by simpa using h2
  have hnone : checkDisallowed task d = none := by
    rw [checkDisallowed_eq_none_iff]
    intro cmd hmem
    rw [Bool.eq_false_iff]
    intro htrue
    rcases (matchesCmd_iff cmd task).mp htrue with hpre | hinf
    · exact h4 cmd hmem hpre.isInfix
    · have hsuffix : (cmd ++ [' ']) <:+ ([' '] ++ cmd ++ [' ']) :=
        ⟨[' '], by simp⟩
      exact h4 cmd hmem (hsuffix.isInfix.trans hinf)
  simp [is_allowed, h1, h2m, hlen, hnone]

theorem token_not_followed_by_space_allowed_witness :
    is_allowed ["rm".toList] ("rm".toList) = (true, "no error".toList) ∧
    is_allowed ["rm".toList] ("echo a; rm".toList) =
      (true, "no error".toList) :=
  ⟨token_not_followed_by_space_allowed ["rm".toList] ("rm".toList)
      (by decide) (by decide) (by decide) (by decide),
   token_not_followed_by_space_allowed ["rm".toList] ("echo a; rm".toList)
      (by decide) (by decide) (by decide) (by decide)⟩

/-- C4: with retry configured and bound `max_retries`, a claimed allowed
job whose every execution fails is run exactly `max_retries` times — the
attempt counter starts at zero when the job is claimed (line 243) and
increments after each failure — and the store content after the iteration
is exactly what the claim transaction persisted: the job is not
re-inserted. -/
theorem retry_bound_exhausts_and_abandons (cfg : Config) (exec : Nat → Int)
    (content task c₂ : PyStr)
    (_hr : cfg.retry = true)
    (hclaim : claimTransaction content = (some task, c₂))
    (hallow : (is_allowed cfg.disallowed task).1 = true)
    (hfail : ∀ n, exec n ≠ 0) :
    workerStep cfg exec content =
      (StepOutcome.ranJob task true cfg.max_retries, c₂) := by
  simp [workerStep, hclaim, hallow, retryLoop_all_fail exec hfail]

/-- Worker configuration with the retry flag set and `max_retries = 3`,
everything else at the argparse defaults. -/
def cfgRetry : Config :=
  { verbose := false, wait_on_idle := false, retry := true,
    sleep_time := 300, max_retries := 3, disallowed := ["rm".toList] }

theorem retry_bound_exhausts_and_abandons_witness :
    workerStep cfgRetry (fun _ => 1) ("a\n".toList) =
      (StepOutcome.ranJob ("a".toList) true cfgRetry.max_retries, []) :=
  retry_bound_exhausts_and_abandons cfgRetry (fun _ => 1) ("a\n".toList)
    ("a".toList) [] rfl (by decide) (by decide) (fun _ => by norm_num)

/-- The default configuration produced by argparse when only `-f` is given:
retry unset, `max_retries` at its default 10 (taskfarmer.py lines 160-173). -/
def cfgNoRetry : Config :=
  { verbose := false, wait_on_idle := false, retry := false,
    sleep_time := 300, max_retries := 10, disallowed := ["rm".toList] }

/-- C1 (code bug): with retry disabled and `max_retries` left at its
default of 10, a claimed allowed job that always fails is executed 10
times, not once.  The loop guard on line 252 reads `args.max_retries`; the
`max_retries = 1` assigned on line 178 for the no-retry case is a distinct
module-level variable that nothing ever reads, contradicting the comment
above it ("only attempt to launch tasks once if retry option is unset"). -/
theorem retry_disabled_still_retries :
    cfgNoRetry.retry = false ∧
    workerStep cfgNoRetry (fun _ => 1) ("job\n".toList) =
      (StepOutcome.ranJob ("job".toList) true 10, []) := by
  decide

/-- C7 (code bug): whatever store path is configured, when the open fails
the handler gets only the token "I/O Error:" onto stderr and then dies
from an uncaught NameError — `task_file` on line 211 is defined nowhere in
the program (the actual variable is `args.file`) — so the configured path
and "doesn't exist!" are never printed and the `sys.exit()` on line 212 is
never executed: the worker terminates, but by crashing, not by the
intended report-and-exit. -/
theorem open_failure_partial_report_then_crash (file : PyStr) :
    openFailureOutcome file =
      (["I/O Error:".toList], ExitKind.uncaughtNameError) := rfl

/-- C8: on an empty store, a worker with `wait_on_idle` unset exits via
`sys.exit()` on its next claim attempt and the run ends there whatever
fuel remains (terminate is absorbing: no further claims); a worker with
`wait_on_idle` set sleeps for `sleep_time` seconds and then performs the
claim transaction again, so any non-empty content appended externally
during the sleep is claimed right afterwards (its first line, newline
stripped). -/
theorem idle_policy (cfg : Config) (exec : Nat → Int) (app : List PyStr)
    (fuel : Nat) (a : PyStr) :
    (cfg.wait_on_idle = false →
      workerRun cfg exec app (fuel + 1) [] = [StepOutcome.terminated]) ∧
    (cfg.wait_on_idle = true → a ≠ [] →
      ∃ ok execs rest,
        workerRun cfg exec [a] (fuel + 2) [] =
          StepOutcome.idleSlept cfg.sleep_time ::
            StepOutcome.ranJob (stripChar '\n' (splitLines a).headI)
              ok execs :: rest) := by
  have hclaimnil : claimTransaction [] =
      ((none : Option PyStr), ([] : PyStr)) := rfl
  constructor
  · intro hw
    have hstep : workerStep cfg exec [] = (StepOutcome.terminated, []) := by
      simp [workerStep, hclaimnil, hw]
    simp [workerRun, hstep]
  · intro hw ha
    have hstep : workerStep cfg exec [] =
        (StepOutcome.idleSlept cfg.sleep_time, []) := by
      simp [workerStep, hclaimnil, hw]
    cases hsp : splitLines a with
    | nil => exact absurd ((splitLines_eq_nil_iff a).mp hsp) ha
    | cons f ls =>
        have hclaim : claimTransaction a =
            (some (stripChar '\n' f), ls.flatten) := by
          simp [claimTransaction, hsp]
        by_cases hal : (is_allowed cfg.disallowed (stripChar '\n' f)).1
        · refine ⟨true, (retryLoop exec 0 cfg.max_retries).1,
            workerRun cfg exec [] fuel ls.flatten, ?_⟩
          have hstep₂ : workerStep cfg exec a =
              (StepOutcome.ranJob (stripChar '\n' f) true
                (retryLoop exec 0 cfg.max_retries).1, ls.flatten) := by
            simp [workerStep, hclaim, hal]
          simp [workerRun, hstep, hstep₂, hsp]
        · refine ⟨false, 0, workerRun cfg exec [] fuel ls.flatten, ?_⟩
          have hstep₂ : workerStep cfg exec a =
              (StepOutcome.ranJob (stripChar '\n' f) false 0, ls.flatten) := by
            simp [workerStep, hclaim, hal]
          simp [workerRun, hstep, hstep₂, hsp]

/-- Worker configuration with `wait_on_idle` set, everything else at the
argparse defaults. -/
def cfgWait : Config :=
  { verbose := false, wait_on_idle := true, retry := false,
    sleep_time := 300, max_retries := 10, disallowed := ["rm".toList] }

theorem idle_policy_witness :
    workerRun cfgNoRetry (fun _ => 1) [] (0 + 1) [] =
      [StepOutcome.terminated] ∧
    (∃ ok execs rest,
      workerRun cfgWait (fun _ => 1) ["x\n".toList] (0 + 2) [] =
        StepOutcome.idleSlept cfgWait.sleep_time ::
          StepOutcome.ranJob (stripChar '\n' (splitLines ("x\n".toList)).headI)
            ok execs :: rest) :=
  ⟨(idle_policy cfgNoRetry (fun _ => 1) [] 0 ("x\n".toList)).1 rfl,
   (idle_policy cfgWait (fun _ => 1) [] 0 ("x\n".toList)).2 rfl (by decide)⟩
